import Mathlib

/-
Verification of the agent-manage command dispatch core.

Part I embeds the `CommandQueue` class from docs/architecture-design.md
(Redis ZSET based priority queue).  A ZSET is modelled as an association
list from member strings (the json-serialised command) to rational scores;
`zadd` updates the score of an existing member or appends a new one, and
`zpopmax` removes and returns the entry with the greatest score.  Redis
breaks exact score ties by the lexicographically greatest member; the exact
tie case never arises in the theorems below (scores there are distinct), so
the model breaks ties by the first listed entry among the maximal ones.
Each Redis command is a single atomic step, exactly as in Redis where every
command executes atomically.
-/

namespace AgentManage

/-- Entry of the scored set backing one agent queue: the serialised command
string together with its score. -/
structure Entry where
  member : String
  score : ℚ
deriving Repr, DecidableEq

/-- Redis ZADD on the association-list model of a ZSET: if the member is
present its score is updated, otherwise the pair is appended. -/
def zadd (q : List Entry) (m : String) (s : ℚ) : List Entry :=
  if q.any (fun e => e.member = m) then
    q.map (fun e => if e.member = m then ⟨m, s⟩ else e)
  else
    q ++ [⟨m, s⟩]

/-- Choice of the better of two entries for ZPOPMAX: the one of strictly
greater score wins; on an exact score tie the first argument is kept (see
the tie remark in the header comment). -/
def better (a b : Entry) : Entry :=
  if a.score < b.score then b else a

/-- Entry returned by ZPOPMAX: the maximal-score entry of the set, or none
when the set is empty. -/
def maxEntry : List Entry → Option Entry
  | [] => none
  | e :: es => some (es.foldl better e)

/-- Score computed by `CommandQueue.push_command` in the source:
`score = priority * 1000000 + time.time()`, where `time.time()` is the
current epoch time in seconds. -/
def score (priority : ℤ) (t : ℚ) : ℚ :=
  priority * 1000000 + t

/-- Embedding of `CommandQueue.push_command` for one agent queue: the
serialised command is ZADDed with score `priority * 1000000 + t`, `t` being
the insertion time `time.time()`. -/
def push_command (q : List Entry) (cmd : String) (priority : ℤ) (t : ℚ) :
    List Entry :=
  zadd q cmd (score priority t)

/-- Embedding of `CommandQueue.pop_command` for one agent queue: a single
atomic ZPOPMAX.  It returns the member of the highest-scoring entry and the
remaining queue, or `none` with the queue unchanged when the queue is
empty, mirroring the `if result: ... return None` in the source. -/
def pop_command (q : List Entry) : Option String × List Entry :=
  match maxEntry q with
  | none => (none, q)
  | some best => (some best.member, q.eraseP (fun e => e.member = best.member))

/-
Part II: the command record lifecycle.  The backend service implementing
the record store, the execution state machine, the timeout-and-retry
sweeper, the group fan-out coordinator and the creation endpoint is not
part of the repository sources (only its documentation, the design
document and the frontend that calls it are), so these definitions are
modelled from the specification text.
-/

/-- Status vocabulary of a command record (spec section 3 data model). -/
inductive Status
  | pending
  | executing
  | success
  | error
  | timeout
  | cancelled
deriving Repr, DecidableEq

/-- Modelled from the spec: the Command record of the data model (spec
section 3), with the identity and opaque payload fields kept as strings
and the timestamp fields in whole epoch seconds.  The backend record
store holding these is missing from the sources. -/
structure Command where
  agent_id : String
  type : String
  content : String
  status : Status
  priority : ℤ
  timeout : ℕ
  retry_count : ℕ
  max_retries : ℕ
  progress : ℕ
  progress_message : Option String
  output : Option String
  error_message : Option String
  created_at : ℕ
  started_at : Option ℕ
  completed_at : Option ℕ
deriving Repr, DecidableEq

/-- Modelled from the spec: terminal statuses are success, cancelled, and
error or timeout once retries are exhausted (spec section 4.3). -/
def Terminal (c : Command) : Prop :=
  c.status = .success ∨ c.status = .cancelled ∨
    ((c.status = .error ∨ c.status = .timeout) ∧ c.max_retries ≤ c.retry_count)

instance (c : Command) : Decidable (Terminal c) := by
  unfold Terminal; infer_instance

/-- Modelled from the spec: the worker-claim transition of section 4.3
(pending, worker claims, executing, set started_at); any other source
status is rejected by the guard.  The backend endpoint is missing from
the sources. -/
def claim (c : Command) (now : ℕ) : Except String Command :=
  if c.status = .pending then
    .ok { c with status := .executing, started_at := some now }
  else
    .error "invalid transition: claim requires pending"

/-- Modelled from the spec: the progress-report transition of section 4.3
(executing, progress report, executing, update progress and message);
rejected in any other status.  The backend endpoint is missing from the
sources. -/
def report_progress (c : Command) (p : ℕ) (msg : Option String) :
    Except String Command :=
  if c.status = .executing then
    .ok { c with progress := p, progress_message := msg }
  else
    .error "invalid transition: progress requires executing"

/-- Result payload of a worker submission: success or error. -/
inductive ResultStatus
  | success
  | error
deriving Repr, DecidableEq

/-- Modelled from the spec: the result-submission transitions of section
4.3 (executing to success setting completed_at and output, or executing
to error setting completed_at and error_message); any attempt on a record
not in executing, in particular a terminal record, is rejected.  The
backend endpoint is missing from the sources. -/
def submit_result (c : Command) (r : ResultStatus)
    (out errm : Option String) (now : ℕ) : Except String Command :=
  if c.status = .executing then
    match r with
    | .success =>
        .ok { c with status := .success, completed_at := some now, output := out }
    | .error =>
        .ok { c with status := .error, completed_at := some now,
                     error_message := errm }
  else
    .error "invalid transition: result requires executing"

/-- Modelled from the spec: the cancel transition of section 4.3 (pending
or executing to cancelled, set completed_at); rejected otherwise.  The
backend endpoint is missing from the sources. -/
def cancel (c : Command) (now : ℕ) : Except String Command :=
  if c.status = .pending ∨ c.status = .executing then
    .ok { c with status := .cancelled, completed_at := some now }
  else
    .error "invalid transition: cancel requires pending or executing"

/-- Modelled from the spec: the explicit retry operation of section 4.3
(from error or timeout with remaining budget, back to pending,
incrementing retry_count and clearing progress in the same atomic
update); rejected in every other status or with exhausted budget.  The
backend endpoint is missing from the sources; the frontend guard in
CommandsPage shows the retry action exactly under this condition. -/
def retry (c : Command) : Except String Command :=
  if (c.status = .error ∨ c.status = .timeout) ∧
      c.retry_count < c.max_retries then
    .ok { c with status := .pending, retry_count := c.retry_count + 1,
                 progress := 0, progress_message := none }
  else
    .error "invalid transition: retry requires error or timeout with budget"

/-- Modelled from the spec: one sweep of the Timeout and Retry Monitor on
one record (spec section 4.4), with the deadline anchored to creation
time as section 9 chooses: a pending or executing record whose elapsed
time exceeds its timeout is retried (back to pending, retry_count
incremented, progress cleared) while budget remains, otherwise finalized
to timeout.  The backend sweeper is missing from the sources. -/
def sweep_step (c : Command) (now : ℕ) : Command :=
  if (c.status = .pending ∨ c.status = .executing) ∧
      c.created_at + c.timeout < now then
    if c.retry_count < c.max_retries then
      { c with status := .pending, retry_count := c.retry_count + 1,
               progress := 0, progress_message := none }
    else
      { c with status := .timeout, completed_at := some now }
  else c

/-- Sequence of sweep cycles at the given times. -/
def sweeps (c : Command) (ts : List ℕ) : Command :=
  ts.foldl sweep_step c

/-- Record-store view of a guarded operation: the record is rewritten only
when the transition is accepted; a rejected transition leaves the stored
record unchanged. -/
def applyOp (op : Command → Except String Command) (c : Command) : Command :=
  match op c with
  | .ok c2 => c2
  | .error _ => c

/-- Modelled from the spec: the body of a creation request of section 6
(POST /commands). -/
structure CommandReq where
  agent_id : String
  type : String
  content : String
  priority : ℤ
  timeout : ℤ
  max_retries : ℕ
deriving Repr, DecidableEq

/-- Modelled from the spec: the command type vocabulary of section 3. -/
def validType (t : String) : Prop :=
  t ∈ (["pause", "cancel", "task", "config_reload", "status_check"] :
    List String)

instance (t : String) : Decidable (validType t) := by
  unfold validType; infer_instance

/-- Modelled from the spec: synchronous validation of a creation request
(spec sections 6 and 7): priority within 0..100, a positive timeout, a
known type. -/
def validReq (r : CommandReq) : Prop :=
  0 ≤ r.priority ∧ r.priority ≤ 100 ∧ 1 ≤ r.timeout ∧ validType r.type

instance (r : CommandReq) : Decidable (validReq r) := by
  unfold validReq; infer_instance

/-- Modelled from the spec: the fresh record a valid creation request
produces (status pending, zero retry_count, empty progress and terminal
payloads, created_at set to the current time). -/
def mkCommand (req : CommandReq) (now : ℕ) : Command :=
  { agent_id := req.agent_id
    type := req.type
    content := req.content
    status := .pending
    priority := req.priority
    timeout := req.timeout.toNat
    retry_count := 0
    max_retries := req.max_retries
    progress := 0
    progress_message := none
    output := none
    error_message := none
    created_at := now
    started_at := none
    completed_at := none }

/-- Modelled from the spec: the creation endpoint (POST /commands, spec
section 6): a malformed request is rejected synchronously with a
ValidationError and no record is created; a valid request appends a fresh
pending record to the store and returns its id.  The backend endpoint is
missing from the sources; ids are modelled as the store position. -/
def create (store : List (ℕ × Command)) (req : CommandReq) (now : ℕ) :
    Except String (ℕ × List (ℕ × Command)) :=
  if validReq req then
    .ok (store.length, store ++ [(store.length, mkCommand req now)])
  else
    .error "ValidationError"

/-
Part III: the group fan-out coordinator, sequential mode (spec section
4.5).  The backend coordinator is missing from the sources; only the
member types with their ordering priority are in the frontend.
-/

/-- Group member with the ordering priority attribute
(frontend/src/types/index.ts AgentGroupMember). -/
structure Member where
  agent_id : String
  priority : ℤ
deriving Repr, DecidableEq

/-- Insertion into a list sorted by ascending member priority. -/
def insertMember (m : Member) : List Member → List Member
  | [] => [m]
  | x :: xs =>
      if m.priority ≤ x.priority then m :: x :: xs else x :: insertMember m xs

/-- Members sorted by ascending priority, the dispatch order of the
sequential mode. -/
def sortMembers (ms : List Member) : List Member :=
  ms.foldr insertMember []

/-- Aggregate status of a group execution. -/
inductive GroupStatus
  | completed
  | failed
deriving Repr, DecidableEq

/-- Modelled from the spec: the sequential pipeline of section 4.5 run
over an already-ordered member list.  Each member is dispatched with the
previous output as input; the result is the list of dispatched members,
the outputs already produced, and the aggregate status; on the first
member failure the remaining members are not dispatched and the status
is failed. -/
def runSeq (exec : Member → String → Option String) :
    List Member → String → List Member × List (Member × String) × GroupStatus
  | [], _ => ([], [], .completed)
  | m :: ms, input =>
      match exec m input with
      | none => ([m], [], .failed)
      | some out =>
          let r := runSeq exec ms out
          (m :: r.1, (m, out) :: r.2.1, r.2.2)

/-- Modelled from the spec: execute_group in sequential mode (spec
section 4.5): members are dispatched one at a time in ascending
member-priority order with pipeline semantics. -/
def execute_group_seq (exec : Member → String → Option String)
    (ms : List Member) (input : String) :
    List Member × List (Member × String) × GroupStatus :=
  runSeq exec (sortMembers ms) input

/-- Outputs and final value of a pipeline prefix in which every member
succeeds: none when some member of the prefix fails. -/
def pipeOuts (exec : Member → String → Option String) :
    String → List Member → Option (List (Member × String) × String)
  | v, [] => some ([], v)
  | v, m :: ms =>
      match exec m v with
      | none => none
      | some out =>
          match pipeOuts exec out ms with
          | none => none
          | some (outs, fin) => some ((m, out) :: outs, fin)

/- Theorems. -/

/-- Score comparison: with `p2 < p1` and `t2 < t1 + 1000000` the
higher-priority score is strictly greater. -/
lemma score_lt_of_priority_lt (p1 p2 : ℤ) (t1 t2 : ℚ)
    (hp : p2 < p1) (ht : t2 < t1 + 1000000) :
    score p2 t2 < score p1 t1 := by
  have hc : (p2 : ℚ) + 1 ≤ (p1 : ℚ) := by exact_mod_cast hp
  have hmul : ((p2 : ℚ) + 1) * 1000000 ≤ (p1 : ℚ) * 1000000 :=
    mul_le_mul_of_nonneg_right hc (by norm_num)
  simp only [score]
  nlinarith [hmul]

/-- ZADD to the empty set appends the new entry. -/
lemma zadd_nil (m : String) (s : ℚ) : zadd [] m s = [⟨m, s⟩] := by
  simp [zadd]

/-- ZADD of a fresh member to a singleton set appends it. -/
lemma zadd_singleton_ne (a : Entry) (m : String) (s : ℚ) (h : a.member ≠ m) :
    zadd [a] m s = [a, ⟨m, s⟩] := by
  simp [zadd, h]

/-- ZPOPMAX of a one-entry queue returns that entry and empties the queue. -/
lemma pop_one (e : Entry) : pop_command [e] = (some e.member, []) := by
  simp [pop_command, maxEntry, List.eraseP]

/-- ZPOPMAX of a two-entry queue whose entry `a` has the strictly greater
score returns `a` first, whichever order the entries are listed in. -/
lemma pop_two_gt (a b : Entry) (hm : b.member ≠ a.member)
    (h : b.score < a.score) :
    pop_command [a, b] = (some a.member, [b]) ∧
    pop_command [b, a] = (some a.member, [b]) := by
  have hba : ¬ a.score < b.score := not_lt.mpr (le_of_lt h)
  constructor
  · simp [pop_command, maxEntry, better, hba, List.eraseP]
  · simp [pop_command, maxEntry, better, h, List.eraseP, hm]

/-- Claim C1 counterexample: priority does not always dominate.  The
command "A" has priority 1, inserted at epoch time 0; the command "B" has
priority 0, inserted 2000000 seconds later.  Score of "A" is 1000000,
score of "B" is 2000000, so `pop_command` returns the lower-priority "B"
first, refuting the claim that the `p1` command is always returned before
the `p2` command. -/
theorem C1_counterexample :
    (pop_command (push_command (push_command [] "A" 1 0) "B" 0 2000000)).1
        = some "B" ∧
    (pop_command (push_command (push_command [] "A" 1 0) "B" 0 2000000)).1
        ≠ some "A" := by
  have hq : push_command (push_command [] "A" 1 0) "B" 0 2000000
      = [⟨"A", score 1 0⟩, ⟨"B", score 0 2000000⟩] := by
    simp [push_command, zadd_nil]
    exact zadd_singleton_ne ⟨"A", score 1 0⟩ "B" (score 0 2000000) (by decide)
  have hs : score (1 : ℤ) 0 < score 0 2000000 := by norm_num [score]
  have hpop := pop_two_gt ⟨"B", score 0 2000000⟩ ⟨"A", score 1 0⟩ (by decide) hs
  rw [hq, hpop.2]
  exact ⟨rfl, by decide⟩

/-- Claim C1 (amended): for commands with priorities `p1 > p2` enqueued for
the same agent, `pop_command` returns the `p1` command first and the `p2`
command second, regardless of insertion order, PROVIDED the lower-priority
insertion time is less than 1000000 seconds after the higher-priority one
(the code uses `K = 1000000` with full epoch-second timestamps, so priority
dominance only holds within that window). -/
theorem C1_amended (cA cB : String) (p1 p2 : ℤ) (t1 t2 : ℚ)
    (hm : cA ≠ cB) (hp : p2 < p1) (ht : t2 < t1 + 1000000) :
    ((pop_command (push_command (push_command [] cA p1 t1) cB p2 t2)).1
        = some cA ∧
      (pop_command
          (pop_command (push_command (push_command [] cA p1 t1) cB p2 t2)).2).1
        = some cB) ∧
    ((pop_command (push_command (push_command [] cB p2 t2) cA p1 t1)).1
        = some cA ∧
      (pop_command
          (pop_command (push_command (push_command [] cB p2 t2) cA p1 t1)).2).1
        = some cB) := by
  have hs : score p2 t2 < score p1 t1 := score_lt_of_priority_lt p1 p2 t1 t2 hp ht
  have hq1 : push_command (push_command [] cA p1 t1) cB p2 t2
      = [⟨cA, score p1 t1⟩, ⟨cB, score p2 t2⟩] := by
    simp [push_command, zadd_nil]
    exact zadd_singleton_ne ⟨cA, score p1 t1⟩ cB (score p2 t2) hm
  have hq2 : push_command (push_command [] cB p2 t2) cA p1 t1
      = [⟨cB, score p2 t2⟩, ⟨cA, score p1 t1⟩] := by
    simp [push_command, zadd_nil]
    exact zadd_singleton_ne ⟨cB, score p2 t2⟩ cA (score p1 t1) (Ne.symm hm)
  have hpop := pop_two_gt ⟨cA, score p1 t1⟩ ⟨cB, score p2 t2⟩ (Ne.symm hm) hs
  refine ⟨⟨?_, ?_⟩, ⟨?_, ?_⟩⟩
  · rw [hq1, hpop.1]
  · rw [hq1, hpop.1]
    exact congrArg Prod.fst (pop_one ⟨cB, score p2 t2⟩)
  · rw [hq2, hpop.2]
  · rw [hq2, hpop.2]
    exact congrArg Prod.fst (pop_one ⟨cB, score p2 t2⟩)

/-- Witness for C1_amended at a concrete input: "A" with priority 1 at
time 0, "B" with priority 0 at time 5. -/
theorem C1_amended_witness :
    (pop_command (push_command (push_command [] "A" 1 0) "B" 0 5)).1
      = some "A" :=
  (C1_amended "A" "B" 1 0 0 5 (by decide) (by decide) (by norm_num)).1.1

/-- Claim C2 counterexample: the FIFO tie-break fails.  Commands "A" and
"B" both have priority 0; "A" is inserted at time 0, "B" at time 1.  ZADD
scores are 0 and 1, and `pop_command` (ZPOPMAX) returns the LATER-inserted
"B" first, refuting the claim that the earlier-inserted command is
returned first among equal priorities. -/
theorem C2_counterexample :
    (pop_command (push_command (push_command [] "A" 0 0) "B" 0 1)).1
        = some "B" ∧
    (pop_command (push_command (push_command [] "A" 0 0) "B" 0 1)).1
        ≠ some "A" := by
  have hq : push_command (push_command [] "A" 0 0) "B" 0 1
      = [⟨"A", score 0 0⟩, ⟨"B", score 0 1⟩] := by
    simp [push_command, zadd_nil]
    exact zadd_singleton_ne ⟨"A", score 0 0⟩ "B" (score 0 1) (by decide)
  have hs : score (0 : ℤ) 0 < score 0 1 := by norm_num [score]
  have hpop := pop_two_gt ⟨"B", score 0 1⟩ ⟨"A", score 0 0⟩ (by decide) hs
  rw [hq, hpop.2]
  exact ⟨rfl, by decide⟩

/-- Claim C2 (amended): among equal priorities the tie-break is LIFO, not
FIFO.  For two commands of the same priority with distinct insertion times
`t1 < t2`, `pop_command` returns the LATER-inserted command first and the
earlier-inserted one second, regardless of insertion order: ZPOPMAX takes
the greatest score `p * 1000000 + t`, and the later insertion has the
greater timestamp, hence the greater score. -/
theorem C2_amended (cA cB : String) (p : ℤ) (t1 t2 : ℚ)
    (hm : cA ≠ cB) (ht : t1 < t2) :
    ((pop_command (push_command (push_command [] cA p t1) cB p t2)).1
        = some cB ∧
      (pop_command
          (pop_command (push_command (push_command [] cA p t1) cB p t2)).2).1
        = some cA) ∧
    ((pop_command (push_command (push_command [] cB p t2) cA p t1)).1
        = some cB ∧
      (pop_command
          (pop_command (push_command (push_command [] cB p t2) cA p t1)).2).1
        = some cA) := by
  have hs : score p t1 < score p t2 := by
    simp only [score]
    linarith
  have hq1 : push_command (push_command [] cA p t1) cB p t2
      = [⟨cA, score p t1⟩, ⟨cB, score p t2⟩] := by
    simp [push_command, zadd_nil]
    exact zadd_singleton_ne ⟨cA, score p t1⟩ cB (score p t2) hm
  have hq2 : push_command (push_command [] cB p t2) cA p t1
      = [⟨cB, score p t2⟩, ⟨cA, score p t1⟩] := by
    simp [push_command, zadd_nil]
    exact zadd_singleton_ne ⟨cB, score p t2⟩ cA (score p t1) (Ne.symm hm)
  have hpop := pop_two_gt ⟨cB, score p t2⟩ ⟨cA, score p t1⟩ hm hs
  refine ⟨⟨?_, ?_⟩, ⟨?_, ?_⟩⟩
  · rw [hq1, hpop.2]
  · rw [hq1, hpop.2]
    exact congrArg Prod.fst (pop_one ⟨cA, score p t1⟩)
  · rw [hq2, hpop.1]
  · rw [hq2, hpop.1]
    exact congrArg Prod.fst (pop_one ⟨cA, score p t1⟩)

/-- Witness for C2_amended at a concrete input: "A" and "B" with equal
priority 7, inserted at times 2 and 3. -/
theorem C2_amended_witness :
    (pop_command (push_command (push_command [] "A" 7 2) "B" 7 3)).1
      = some "B" :=
  (C2_amended "A" "B" 7 2 3 (by decide) (by norm_num)).1.1

/-- Claim C3: a queue holding exactly one pending command delivers it to
exactly one of two concurrent pop callers.  Each `pop_command` is a single
atomic ZPOPMAX step, so a concurrent pair of calls linearizes to two
sequential calls in one of the two orders, and both orders are the same
state sequence: the first call receives the command and empties the queue,
the second receives the empty signal; the command is delivered exactly
once and never dropped. -/
theorem C3_single_pending_claimed_once (e : Entry) :
    pop_command [e] = (some e.member, []) ∧ (pop_command []).1 = none := by
  exact ⟨pop_one e, rfl⟩

/-- Claim C10: `pop_command` on an empty agent queue returns `none` (the
empty signal) rather than raising, and leaves the queue state unchanged. -/
theorem C10_pop_empty : pop_command [] = (none, []) := rfl

/-- Sweep of a record already in status timeout changes nothing. -/
lemma sweep_step_timeout (c : Command) (h : c.status = .timeout) (now : ℕ) :
    sweep_step c now = c := by
  simp [sweep_step, h]

/-- Sweeps of a record already in status timeout change nothing. -/
lemma sweeps_timeout (ts : List ℕ) (c : Command) (h : c.status = .timeout) :
    sweeps c ts = c := by
  induction ts with
  | nil => rfl
  | cons t ts ih =>
      simp only [sweeps, List.foldl_cons, sweep_step_timeout c h t]
      exact ih

/-- Behaviour of repeated overdue sweeps from a pending record: while the
remaining length fits in the budget the record is still pending with one
retry counted per sweep; once the sweeps outnumber the budget the record
is finalized to timeout with the budget exhausted. -/
lemma sweeps_from_pending (ts : List ℕ) (c : Command)
    (hst : c.status = .pending) (hrc : c.retry_count ≤ c.max_retries)
    (hts : ∀ t ∈ ts, c.created_at + c.timeout < t) :
    (c.retry_count + ts.length ≤ c.max_retries →
      (sweeps c ts).status = .pending ∧
      (sweeps c ts).retry_count = c.retry_count + ts.length) ∧
    (c.max_retries < c.retry_count + ts.length →
      (sweeps c ts).status = .timeout ∧
      (sweeps c ts).retry_count = c.max_retries) := by
  induction ts generalizing c with
  | nil =>
      constructor
      · intro _
        exact ⟨by simpa [sweeps] using hst, by simp [sweeps]⟩
      · intro h
        simp only [List.length_nil, Nat.add_zero] at h
        exact absurd hrc (not_le.mpr h)
  | cons t ts ih =>
      have hov : c.created_at + c.timeout < t := hts t (List.mem_cons_self t ts)
      have hrest : ∀ t2 ∈ ts, c.created_at + c.timeout < t2 :=
        fun t2 h2 => hts t2 (List.mem_cons_of_mem t h2)
      have hunfold : sweeps c (t :: ts) = sweeps (sweep_step c t) ts := rfl
      by_cases hb : c.retry_count < c.max_retries
      · have hstep : sweep_step c t
            = { c with status := .pending, retry_count := c.retry_count + 1,
                       progress := 0, progress_message := none } := by
          simp [sweep_step, hst, hov, hb]
        have hrec := ih ({ c with
              status := .pending,
              retry_count := c.retry_count + 1,
              progress := 0,
              progress_message := none }) rfl (by dsimp only; omega)
          (by dsimp only; exact hrest)
        rw [hunfold, hstep]
        dsimp only at hrec
        simp only [List.length_cons]
        constructor
        · intro h
          obtain ⟨h1, h2⟩ := hrec.1 (by omega)
          exact ⟨h1, by omega⟩
        · intro h
          exact hrec.2 (by omega)
      · have hstep : sweep_step c t
            = { c with status := .timeout, completed_at := some t } := by
          simp [sweep_step, hst, hov, hb]
        have hfix : sweeps { c with
              status := .timeout,
              completed_at := some t } ts
            = { c with status := .timeout, completed_at := some t } :=
          sweeps_timeout ts _ rfl
        rw [hunfold, hstep, hfix]
        constructor
        · intro h
          simp only [List.length_cons] at h
          exact absurd hrc (by omega)
        · intro _
          exact ⟨rfl, by dsimp only; omega⟩

/-- Claim C4: a command created with max_retries r and never claimed by a
worker goes, under sweep cycles each past its timeout, through exactly r
retry transitions back to pending (each incrementing retry_count: after k
overdue sweeps with k at most r it is pending with retry_count k), and on
the next overdue sweep is finalized to status timeout with retry_count r;
once terminal, further sweeps never make it pending again. -/
theorem C4_retry_then_timeout (req : CommandReq) (r : ℕ) (ts : List ℕ)
    (hr : req.max_retries = r)
    (hts : ∀ t ∈ ts, req.timeout.toNat < t) :
    (ts.length ≤ r →
      (sweeps (mkCommand req 0) ts).status = .pending ∧
      (sweeps (mkCommand req 0) ts).retry_count = ts.length) ∧
    (r < ts.length →
      (sweeps (mkCommand req 0) ts).status = .timeout ∧
      (sweeps (mkCommand req 0) ts).retry_count = r ∧
      ∀ ts2, sweeps (sweeps (mkCommand req 0) ts) ts2
        = sweeps (mkCommand req 0) ts) := by
  have h := sweeps_from_pending ts (mkCommand req 0) rfl
    (by simp [mkCommand]) (by simpa [mkCommand] using hts)
  constructor
  · intro hlen
    have := h.1 (by simp [mkCommand]; omega)
    simpa [mkCommand] using this
  · intro hlen
    have h2 := h.2 (by simp [mkCommand]; omega)
    refine ⟨h2.1, by simpa [mkCommand, hr] using h2.2, fun ts2 => ?_⟩
    exact sweeps_timeout ts2 _ h2.1

/-- Witness for C4_retry_then_timeout: a command with timeout 5 and
max_retries 2, swept at times 10, 20, 30, ends in status timeout with
retry_count 2. -/
theorem C4_retry_then_timeout_witness :
    (sweeps (mkCommand ⟨"a1", "task", "", 50, 5, 2⟩ 0) [10, 20, 30]).status
        = Status.timeout ∧
    (sweeps (mkCommand ⟨"a1", "task", "", 50, 5, 2⟩ 0)
        [10, 20, 30]).retry_count = 2 := by
  have h := (C4_retry_then_timeout ⟨"a1", "task", "", 50, 5, 2⟩ 2 [10, 20, 30]
    rfl (by decide)).2 (by decide)
  exact ⟨h.1, h.2.1⟩

/-- Claim C5: the invariant retry_count at most max_retries holds after
every operation of the lifecycle (claim, progress report, result
submission, cancel, retry, timeout sweep) whenever it holds before, and a
timeout event on a record with exhausted budget forces the terminal
status timeout instead of exceeding the budget. -/
theorem C5_retry_budget_invariant (c : Command)
    (h : c.retry_count ≤ c.max_retries) :
    (∀ now c2, claim c now = .ok c2 → c2.retry_count ≤ c2.max_retries) ∧
    (∀ p msg c2, report_progress c p msg = .ok c2 →
      c2.retry_count ≤ c2.max_retries) ∧
    (∀ r out errm now c2, submit_result c r out errm now = .ok c2 →
      c2.retry_count ≤ c2.max_retries) ∧
    (∀ now c2, cancel c now = .ok c2 → c2.retry_count ≤ c2.max_retries) ∧
    (∀ c2, retry c = .ok c2 → c2.retry_count ≤ c2.max_retries) ∧
    (∀ now, (sweep_step c now).retry_count ≤ (sweep_step c now).max_retries) ∧
    (∀ now, c.max_retries ≤ c.retry_count →
      (c.status = .pending ∨ c.status = .executing) →
      c.created_at + c.timeout < now →
      (sweep_step c now).status = .timeout) := by
  refine ⟨?_, ?_, ?_, ?_, ?_, ?_, ?_⟩
  · intro now c2 hc
    by_cases hcond : c.status = .pending
    · simp only [claim, if_pos hcond, Except.ok.injEq] at hc
      rw [← hc]; exact h
    · simp [claim, hcond] at hc
  · intro p msg c2 hc
    by_cases hcond : c.status = .executing
    · simp only [report_progress, if_pos hcond, Except.ok.injEq] at hc
      rw [← hc]; exact h
    · simp [report_progress, hcond] at hc
  · intro r out errm now c2 hc
    by_cases hcond : c.status = .executing
    · cases r <;>
        simp only [submit_result, if_pos hcond, Except.ok.injEq] at hc <;>
        (rw [← hc]; exact h)
    · simp [submit_result, hcond] at hc
  · intro now c2 hc
    by_cases hcond : c.status = .pending ∨ c.status = .executing
    · simp only [cancel, if_pos hcond, Except.ok.injEq] at hc
      rw [← hc]; exact h
    · simp [cancel, hcond] at hc
  · intro c2 hc
    by_cases hcond : (c.status = .error ∨ c.status = .timeout) ∧
        c.retry_count < c.max_retries
    · simp only [retry, if_pos hcond, Except.ok.injEq] at hc
      rw [← hc]; dsimp only; omega
    · simp [retry, hcond] at hc
  · intro now
    by_cases h1 : (c.status = .pending ∨ c.status = .executing) ∧
        c.created_at + c.timeout < now
    · by_cases h2 : c.retry_count < c.max_retries
      · simp only [sweep_step, if_pos h1, if_pos h2]
        omega
      · simp only [sweep_step, if_pos h1, if_neg h2]
        omega
    · simp only [sweep_step, if_neg h1]; exact h
  · intro now hm hs hov
    have h2 : ¬ c.retry_count < c.max_retries := by omega
    simp only [sweep_step, if_pos (And.intro hs hov), if_neg h2]

/-- Witness for C5_retry_budget_invariant: the sweep clause at a concrete
pending record with retry_count 0 and max_retries 2. -/
theorem C5_retry_budget_invariant_witness :
    (sweep_step ⟨"a", "task", "", Status.pending, 50, 5, 0, 2, 0, none,
        none, none, 0, none, none⟩ 100).retry_count ≤
      (sweep_step ⟨"a", "task", "", Status.pending, 50, 5, 0, 2, 0, none,
        none, none, 0, none, none⟩ 100).max_retries :=
  (C5_retry_budget_invariant ⟨"a", "task", "", Status.pending, 50, 5, 0, 2,
    0, none, none, none, 0, none, none⟩ (by decide)).2.2.2.2.2.1 100

/-- Claim C6: every transition attempt on a record already in a terminal
state (success, cancelled, or error or timeout with exhausted retries) is
rejected with an error, and the stored record is unchanged: in
particular a late result submission leaves completed_at and output with
their prior values. -/
theorem C6_terminal_rejects (c : Command) (h : Terminal c) :
    ∀ r out errm now p msg,
      (∃ m, submit_result c r out errm now = .error m) ∧
      (applyOp (fun x => submit_result x r out errm now) c).completed_at
        = c.completed_at ∧
      (applyOp (fun x => submit_result x r out errm now) c).output
        = c.output ∧
      (∃ m, claim c now = .error m) ∧
      (∃ m, report_progress c p msg = .error m) ∧
      (∃ m, cancel c now = .error m) ∧
      (∃ m, retry c = .error m) := by
  have hsp : c.status ≠ .pending := by
    rcases h with h | h | ⟨h | h, _⟩ <;> simp [h]
  have hse : c.status ≠ .executing := by
    rcases h with h | h | ⟨h | h, _⟩ <;> simp [h]
  intro r out errm now p msg
  have hsub : submit_result c r out errm now
      = .error "invalid transition: result requires executing" := by
    simp [submit_result, hse]
  have hretry : retry c
      = .error "invalid transition: retry requires error or timeout with budget" := by
    rcases h with h | h | ⟨hs, hm⟩
    · simp [retry, h]
    · simp [retry, h]
    · simp [retry, not_lt.mpr hm]
  have hclaim : claim c now
      = .error "invalid transition: claim requires pending" := by
    simp [claim, hsp]
  have hprog : report_progress c p msg
      = .error "invalid transition: progress requires executing" := by
    simp [report_progress, hse]
  have hcan : cancel c now
      = .error "invalid transition: cancel requires pending or executing" := by
    simp [cancel, hsp, hse]
  exact ⟨⟨_, hsub⟩, by simp [applyOp, hsub], by simp [applyOp, hsub],
    ⟨_, hclaim⟩, ⟨_, hprog⟩, ⟨_, hcan⟩, ⟨_, hretry⟩⟩

/-- Witness for C6_terminal_rejects: a record in status success rejects a
late result submission without touching completed_at. -/
theorem C6_terminal_rejects_witness :
    ∃ m, submit_result ⟨"a", "task", "", Status.success, 50, 5, 0, 2, 100,
        none, some "out", none, 0, some 1, some 2⟩ ResultStatus.success
        (some "late") none 9 = .error m :=
  (C6_terminal_rejects ⟨"a", "task", "", Status.success, 50, 5, 0, 2, 100,
      none, some "out", none, 0, some 1, some 2⟩ (Or.inl rfl)
    ResultStatus.success (some "late") none 9 0 none).1

/-- Claim C7: the retry operation succeeds exactly when the status is
error or timeout and retry_count is below max_retries; on success the
record re-enters pending with retry_count incremented (and progress
cleared) in the same update, and in every other case it returns an error
and the stored record is unchanged. -/
theorem C7_retry_iff (c : Command) :
    (∀ c2, retry c = .ok c2 →
      ((c.status = .error ∨ c.status = .timeout) ∧
        c.retry_count < c.max_retries) ∧
      c2 = { c with
              status := .pending,
              retry_count := c.retry_count + 1,
              progress := 0,
              progress_message := none }) ∧
    ((c.status = .error ∨ c.status = .timeout) →
      c.retry_count < c.max_retries →
      retry c = .ok { c with
                      status := .pending,
                      retry_count := c.retry_count + 1,
                      progress := 0,
                      progress_message := none }) ∧
    (¬ ((c.status = .error ∨ c.status = .timeout) ∧
        c.retry_count < c.max_retries) →
      (∃ m, retry c = .error m) ∧ applyOp retry c = c) := by
  by_cases hcond : (c.status = .error ∨ c.status = .timeout) ∧
      c.retry_count < c.max_retries
  · refine ⟨?_, ?_, ?_⟩
    · intro c2 hc
      simp only [retry, if_pos hcond, Except.ok.injEq] at hc
      exact ⟨hcond, hc.symm⟩
    · intro _ _
      simp only [retry, if_pos hcond]
    · intro hn
      exact absurd hcond hn
  · refine ⟨?_, ?_, ?_⟩
    · intro c2 hc
      simp [retry, hcond] at hc
    · intro h1 h2
      exact absurd ⟨h1, h2⟩ hcond
    · intro _
      have he : retry c
          = .error "invalid transition: retry requires error or timeout with budget" := by
        simp [retry, hcond]
      exact ⟨⟨_, he⟩, by simp [applyOp, he]⟩

/-- Witness for C7_retry_iff: a concrete error record with budget left is
retried back to pending with retry_count 1. -/
theorem C7_retry_iff_witness :
    retry ⟨"a", "task", "", Status.error, 50, 5, 0, 2, 30, some "p",
        none, some "boom", 0, some 1, some 2⟩
      = .ok ⟨"a", "task", "", Status.pending, 50, 5, 1, 2, 0, none,
        none, some "boom", 0, some 1, some 2⟩ :=
  (C7_retry_iff ⟨"a", "task", "", Status.error, 50, 5, 0, 2, 30, some "p",
      none, some "boom", 0, some 1, some 2⟩).2.1 (Or.inl rfl) (by decide)

/-- Running the sequential pipeline over a member list whose prefix
succeeds and whose next member fails dispatches exactly the prefix and
the failing member, keeps the outputs the prefix produced, and ends
failed; the members after the failure are never dispatched. -/
lemma runSeq_fail (exec : Member → String → Option String)
    (pre : List Member) (m : Member) (post : List Member)
    (input v : String) (outs : List (Member × String))
    (hpre : pipeOuts exec input pre = some (outs, v))
    (hfail : exec m v = none) :
    runSeq exec (pre ++ m :: post) input = (pre ++ [m], outs, .failed) := by
  induction pre generalizing input outs with
  | nil =>
      simp only [pipeOuts, Option.some.injEq, Prod.mk.injEq] at hpre
      obtain ⟨ho, hv⟩ := hpre
      subst ho; subst hv
      simp [runSeq, hfail]
  | cons x xs ih =>
      rcases hx : exec x input with _ | out
      · simp [pipeOuts, hx] at hpre
      · simp only [pipeOuts, hx] at hpre
        rcases hrest : pipeOuts exec out xs with _ | p
        · rw [hrest] at hpre; simp at hpre
        · obtain ⟨outs2, fin⟩ := p
          rw [hrest] at hpre
          simp only [Option.some.injEq, Prod.mk.injEq] at hpre
          obtain ⟨ho, hv⟩ := hpre
          subst hv
          have ihres := ih out outs2 hrest
          rw [← ho]
          simp [runSeq, hx, ihres]

/-- Claim C8: in sequential mode the group members are dispatched one at
a time in ascending member-priority order; when a member fails, the
members after it in that order are never dispatched, the group execution
status is failed, and the outputs already produced by the earlier
members are preserved. -/
theorem C8_sequential_abort (exec : Member → String → Option String)
    (g : List Member) (input v : String) (pre post : List Member)
    (m : Member) (outs : List (Member × String))
    (hsort : sortMembers g = pre ++ m :: post)
    (hpre : pipeOuts exec input pre = some (outs, v))
    (hfail : exec m v = none) :
    execute_group_seq exec g input = (pre ++ [m], outs, .failed) := by
  unfold execute_group_seq
  rw [hsort]
  exact runSeq_fail exec pre m post input v outs hpre hfail

/-- Witness for C8_sequential_abort: members A (priority 1) and B
(priority 2) listed in reverse order; A fails, so the run dispatches only
A, produces no outputs, and the group status is failed; B is never
dispatched. -/
theorem C8_sequential_abort_witness :
    execute_group_seq
        (fun m i => if m.agent_id = "A" then none else some (i ++ "!"))
        [⟨"B", 2⟩, ⟨"A", 1⟩] "in"
      = ([⟨"A", 1⟩], [], GroupStatus.failed) :=
  C8_sequential_abort
    (fun m i => if m.agent_id = "A" then none else some (i ++ "!"))
    [⟨"B", 2⟩, ⟨"A", 1⟩] "in" "in" [] [⟨"B", 2⟩] ⟨"A", 1⟩ []
    (by decide) rfl rfl

/-- Claim C9: command creation validates synchronously: a request whose
priority lies outside 0..100 (or whose timeout or type is malformed) is
rejected with a ValidationError and no record is created; a well-formed
request appends a fresh pending record to the store and returns its
id. -/
theorem C9_creation_validation (store : List (ℕ × Command))
    (req : CommandReq) (now : ℕ) :
    (¬ (0 ≤ req.priority ∧ req.priority ≤ 100) →
      create store req now = .error "ValidationError") ∧
    (¬ validReq req → create store req now = .error "ValidationError") ∧
    (validReq req →
      create store req now
        = .ok (store.length, store ++ [(store.length, mkCommand req now)])) := by
  refine ⟨?_, ?_, ?_⟩
  · intro hp
    have hv : ¬ validReq req := fun hv => hp ⟨hv.1, hv.2.1⟩
    simp [create, hv]
  · intro hv
    simp [create, hv]
  · intro hv
    simp [create, hv]

/-- Witness for C9_creation_validation: priority 101 is rejected with a
ValidationError while priority 50 creates the record and returns id 0. -/
theorem C9_creation_validation_witness :
    create [] ⟨"a1", "task", "x", 101, 60, 3⟩ 0 = .error "ValidationError" ∧
    create [] ⟨"a1", "task", "x", 50, 60, 3⟩ 0
      = .ok (0, [(0, mkCommand ⟨"a1", "task", "x", 50, 60, 3⟩ 0)]) :=
  ⟨(C9_creation_validation [] ⟨"a1", "task", "x", 101, 60, 3⟩ 0).1
      (by decide),
   (C9_creation_validation [] ⟨"a1", "task", "x", 50, 60, 3⟩ 0).2.2
      (by decide)⟩

end AgentManage
